import Mathlib

/-!
Verification of the remote-fleet command-execution engine of Backinajiffy-Mama.

Shallow embedding of:
- `backinajiffy/mama/remote.py`: `parse_ssh_urls`, `resolve_cli_arguments`, `_wrap_sudo`,
  `connect`, `run_cmd`, `run_cmd_logged`, `cat_file`;
- `backinajiffy/mama/parallel.py`: `spawn_processes`, `spawn_tasks`, `run_task_on_remote`;
- `backinajiffy/mama/utils.py`: class `Delay`.

Python dicts become structures (a field of type `Option _` wrapped once more models a
dict key that may be absent), exceptions become `Except`, and the I/O environment
(asyncssh connections, remote processes) is passed in explicitly.
-/

/-- Python exceptions raised by the embedded code: `MamaError` (from `exc.py`, which the
repository imports for configuration errors), `ValueError` and `TypeError`. -/
inductive PyErr where
  | mama (msg : String)
  | value (msg : String)
  | typeErr (msg : String)
deriving DecidableEq, Repr

/-- One entry of the list produced by `parse_ssh_urls` (remote.py):
`{'host': o.hostname, 'port': o.port if o.port else SSH_PORT, 'username': o.username,
'password': o.password}`. `host`, `username`, `password` are `None`-able. -/
structure HostSpec where
  host : Option String
  port : Int
  username : Option String
  password : Option String
deriving DecidableEq, Repr

/-- Index of the first occurrence of `sep` in `l` (text is handled as character lists
so every operation is structurally recursive). -/
def findSub (sep : List Char) : List Char → Option Nat
  | [] => if sep = [] then some 0 else none
  | c :: rest =>
      if sep.isPrefixOf (c :: rest) then some 0
      else (findSub sep rest).map (· + 1)

/-- Python `str.partition(sep)`: the part before the first occurrence of `sep`, and
the part after it (`none` when `sep` is absent). -/
def listPartition (sep : List Char) (l : List Char) : List Char × Option (List Char) :=
  match findSub sep l with
  | none => (l, none)
  | some i => (l.take i, some (l.drop (i + sep.length)))

/-- Index of the last occurrence of the character `ch` in the list. -/
def rfindChar (ch : Char) : List Char → Option Nat
  | [] => none
  | c :: rest =>
      match rfindChar ch rest with
      | some i => some (i + 1)
      | none => if c == ch then some 0 else none

/-- Python `str.rpartition(ch)` for a single-character separator: the part before the
last occurrence (`none` when absent) and the part after it. -/
def listRPartition (ch : Char) (l : List Char) : Option (List Char) × List Char :=
  match rfindChar ch l with
  | none => (none, l)
  | some i => (some (l.take i), l.drop (i + 1))

/-- Python `str.startswith`. -/
def pyStartswith (s pre : String) : Bool := pre.data.isPrefixOf s.data

/-- ASCII lowercasing of one character, as `urlparse`'s `hostname` property applies
(hostnames in scope are ASCII). -/
def lowerChar (c : Char) : Char :=
  if 65 ≤ c.toNat ∧ c.toNat ≤ 90 then Char.ofNat (c.toNat + 32) else c

/-- The numeric value of a digit string (callers guard that all characters are
digits, as `int(...)` requires). -/
def digitsToNat (l : List Char) : Nat :=
  l.foldl (fun n c => n * 10 + (c.toNat - 48)) 0

/-- The netloc component of `urllib.parse.urlparse`: the text between `scheme://` and
the first `/`, `?` or `#`; empty when the URL has no `//` after the scheme. -/
def netlocOf (u : String) : List Char :=
  match (listPartition "://".data u.data).2 with
  | some rest => rest.takeWhile (fun c => !(c == '/' || c == '?' || c == '#'))
  | none => []

/-- Port extraction of `urllib.parse`: empty port text is `None`; non-digit text raises
`ValueError` (as `int(port)` does), as does a value above 65535 (as the `port`
property does). -/
def parsePort (s : Option (List Char)) : Except PyErr (Option Int) :=
  match s with
  | none => .ok none
  | some ps =>
    if ps = [] then .ok none
    else if ps.all Char.isDigit then
      let n := digitsToNat ps
      if n ≤ 65535 then .ok (some (n : Int))
      else .error (.value "Port out of range 0-65535")
    else .error (.value "Port could not be cast to integer value")

/-- One URL of `parse_ssh_urls` (remote.py): via `urlparse`, username/password split the
userinfo (before the last `@` of the netloc) at its first `:`, hostname (lowercased by
`urlparse`, `None` when empty) and port split the hostinfo at its first `:`. The default
port `SSH_PORT = 22` is substituted here, as `parse_ssh_urls` does with
`o.port if o.port else SSH_PORT` (a port of 0 is falsy and also defaults). -/
def parse_ssh_url (u : String) : Except PyErr HostSpec := do
  let netloc := netlocOf u
  let (userinfo, hostinfo) := listRPartition '@' netloc
  let (username, password) :=
    match userinfo with
    | none => (none, none)
    | some ui =>
        let (un, pw) := listPartition [':'] ui
        (some (String.mk un), pw.map String.mk)
  let (hostname, portStr) := listPartition [':'] hostinfo
  let port ← parsePort portStr
  .ok { host := if hostname = [] then none else some (String.mk (hostname.map lowerChar)),
        port := match port with
                | some p => if p ≠ 0 then p else 22
                | none => 22,
        username := username,
        password := password }

/-- Function `parse_ssh_urls` (remote.py): parses each URL in order; the first `ValueError`
propagates. -/
def parse_ssh_urls : List String → Except PyErr (List HostSpec)
  | [] => .ok []
  | u :: rest =>
      match parse_ssh_url u with
      | .error e => .error e
      | .ok h =>
          match parse_ssh_urls rest with
          | .error e => .error e
          | .ok hs => .ok (h :: hs)

/-- The fields `resolve_cli_arguments` writes into every target dict via
`r.update(general_args)` (plus the `known_hosts` key added when strict host key checking
is off). `known_hosts_none` records presence of the `known_hosts` key (value `None`). -/
structure GeneralArgs where
  jump_hosts : List HostSpec
  /-- the dict key named `sudo` in the source (renamed here: Lean reserves that word) -/
  sudoFlag : Bool
  cmd_timeout : Int
  login_timeout : Int
  known_hosts_none : Bool
deriving DecidableEq, Repr

/-- One resolved target dict of `resolve_cli_arguments` (remote.py). `sudo_pwd` models
the dict key `sudo_pwd`, present (`some _`) exactly when `sudoFlag` is set; its value is the
end host's (possibly `None`) password. -/
structure RemoteTarget where
  end_host : HostSpec
  jump_hosts : List HostSpec
  sudoFlag : Bool
  cmd_timeout : Int
  login_timeout : Int
  known_hosts_none : Bool
  sudo_pwd : Option (Option String)
deriving DecidableEq, Repr

/-- Builds one resolved target dict from its end host: the body of the loop in
`resolve_cli_arguments` after `r['end_host']` is set — `r.update(general_args)`
overwrites every general field (so nothing but `end_host` survives a deep copy of the
previous target), and `if r['sudo']: r['sudo_pwd'] = r['end_host']['password']` fills
`sudo_pwd` from the current end host. When `sudoFlag` is false the key is never written
(and a copied value from the previous round is also absent, since `sudoFlag` is constant
across the loop). -/
def finishTarget (ga : GeneralArgs) (eh : HostSpec) : RemoteTarget :=
  { end_host := eh,
    jump_hosts := ga.jump_hosts,
    sudoFlag := ga.sudoFlag,
    cmd_timeout := ga.cmd_timeout,
    login_timeout := ga.login_timeout,
    known_hosts_none := ga.known_hosts_none,
    sudo_pwd := if ga.sudoFlag then some eh.password else none }

/-- One iteration of the loop in `resolve_cli_arguments`: a remote starting with
`ssh://` is parsed into a fresh end host; a bare remote substitutes only the host field
into a deep copy of the previous target's end host; a bare first remote (no previous
target) raises `MamaError('1st remote must be complete URL')`. -/
def resolveRemote (ga : GeneralArgs) (prev : Option RemoteTarget) (ar : String) :
    Except PyErr RemoteTarget :=
  if pyStartswith ar "ssh://" then do
    let eh ← parse_ssh_url ar
    .ok (finishTarget ga eh)
  else
    match prev with
    | some p => .ok (finishTarget ga { p.end_host with host := some ar })
    | none => .error (.mama "1st remote must be complete URL")

/-- The loop of `resolve_cli_arguments` over `args.remotes`, threading the previously
resolved target (`rr[i - 1]`). -/
def resolveList (ga : GeneralArgs) : Option RemoteTarget → List String →
    Except PyErr (List RemoteTarget)
  | _, [] => .ok []
  | prev, ar :: rest =>
      match resolveRemote ga prev ar with
      | .error e => .error e
      | .ok r =>
          match resolveList ga (some r) rest with
          | .error e => .error e
          | .ok rr => .ok (r :: rr)

/-- The CLI argument namespace consumed by `resolve_cli_arguments` (the fields
`add_cli_arguments` defines). -/
structure CliArgs where
  remotes : List String
  jump_hosts : List String
  sudoFlag : Bool
  cmd_timeout : Int
  login_timeout : Int
  strict_host_key_checking : Bool
deriving DecidableEq, Repr

/-- Function `resolve_cli_arguments` (remote.py): builds `general_args` (jump hosts parsed only
when the list is truthy, i.e. non-empty; `known_hosts = None` added when strict host key
checking is off) and resolves each remote in order. -/
def resolve_cli_arguments (args : CliArgs) : Except PyErr (List RemoteTarget) :=
  match (if args.jump_hosts.isEmpty then .ok [] else parse_ssh_urls args.jump_hosts :
      Except PyErr (List HostSpec)) with
  | .error e => .error e
  | .ok jhs =>
      resolveList
        { jump_hosts := jhs,
          sudoFlag := args.sudoFlag,
          cmd_timeout := args.cmd_timeout,
          login_timeout := args.login_timeout,
          known_hosts_none := !args.strict_host_key_checking }
        none args.remotes

/-! ## Backoff helper: class `Delay` (utils.py) -/

/-- Constant `Delay.DELAYS` (utils.py): the fixed escalating delay sequence. -/
def Delay.DELAYS : List Int := [0, 1, 2, 3, 5, 8, 13, 21, 34, 55, 89, 144]

/-- The mutable state of a `Delay` instance: `self._max` and `self._cnt`. -/
structure Delay where
  _max : Int
  _cnt : Int
deriving DecidableEq, Repr

/-- Constructor `Delay.__init__` (utils.py): `self._max = max_ if max_ else self.DELAYS[-1]`
(`max_` is falsy when it is `None` or `0`), `self._cnt = -1`. -/
def Delay.init (max_ : Option Int) : Delay :=
  { _max := match max_ with
            | some m => if m ≠ 0 then m else Delay.DELAYS.getLastD 0
            | none => Delay.DELAYS.getLastD 0,
    _cnt := -1 }

/-- Method `Delay.reset` (utils.py): `self._cnt = -1`. -/
def Delay.reset (d : Delay) : Delay := { d with _cnt := -1 }

/-- Method `Delay.delay` (utils.py): increments `self._cnt`, clamps it at the last index of
`DELAYS`, and returns `min(self.DELAYS[self._cnt], self._max)`. Returns the value
together with the updated state. -/
def Delay.delay (d : Delay) : Int × Delay :=
  let cnt := d._cnt + 1
  let cnt := if (Delay.DELAYS.length : Int) ≤ cnt then (Delay.DELAYS.length : Int) - 1
             else cnt
  (min (Delay.DELAYS.getD cnt.toNat 0) d._max, { d with _cnt := cnt })

/-- The values returned by `n` successive calls of `delay()` on state `d`. -/
def Delay.run (d : Delay) : Nat → List Int
  | 0 => []
  | Nat.succ n => (d.delay).1 :: ((d.delay).2).run n

/-- The value returned by the `(n+1)`-st call of `delay()` on state `d`
(`d.nth 0` is the first call). -/
def Delay.nth (d : Delay) : Nat → Int
  | 0 => (d.delay).1
  | Nat.succ n => ((d.delay).2).nth n

/-- The state after `n` calls of `delay()` on state `d`. -/
def Delay.stateAfter (d : Delay) : Nat → Delay
  | 0 => d
  | Nat.succ n => ((d.delay).2).stateAfter n

/-! ## Command runner (remote.py) -/

/-- Type `asyncssh.SSHCompletedProcess`, as used by `run_cmd`/`run_cmd_logged`:
exit status, stdout and stderr of the completed remote process. -/
structure SSHCompletedProcess where
  returncode : Int
  stdout : String
  stderr : String
deriving DecidableEq, Repr

/-- Type `asyncssh.ProcessError` as observed through `run_cmd`: carries the exit status and
the stderr of the failed remote command. -/
structure ProcessError where
  exit_status : Int
  stderr : String
deriving DecidableEq, Repr

/-- The environment: an open end-host SSH session. Maps the command line and the
optional data written to the remote stdin to the completed remote process. -/
def Conn : Type := String → Option String → SSHCompletedProcess

/-- The `cmd` argument of `run_cmd` (`cmd: str or List[str]`). -/
inductive PyCmd where
  | str (s : String)
  | list (args : List String)
deriving DecidableEq, Repr

/-- The `sudo` argument of `run_cmd` and friends: `None`, a bool, or the secret. -/
inductive PySudo where
  | none
  | bool (b : Bool)
  | str (s : String)
deriving DecidableEq, Repr

/-- Function `_wrap_sudo` (remote.py): prefixes the command with the privilege-escalation
wrapper reading its credential from stdin with an empty prompt. -/
def _wrap_sudo (cmd : String) : String := "sudo -S -p '' " ++ cmd

/-- The invocation of `conn.run` that `run_cmd` (remote.py) builds before the network
round-trip: a list command is joined with single spaces (`cmd = ' '.join(cmd)`); when
the `sudo` argument is a string, the command is wrapped with `_wrap_sudo` and the
secret followed by a newline becomes the remote stdin (`input=inp`; whether it is
encoded to bytes depends on the `encoding` kwarg but the content is the same);
otherwise no input is supplied. -/
structure RunCall where
  cmd : String
  input : Option String
deriving DecidableEq, Repr

/-- The command line and stdin data `run_cmd` passes to `conn.run`. -/
def runCmdCall (cmd : PyCmd) (sudoArg : PySudo) : RunCall :=
  let cmdStr := match cmd with
    | .list args => String.intercalate " " args
    | .str s => s
  match sudoArg with
  | .str s => { cmd := _wrap_sudo cmdStr, input := some (s ++ "\n") }
  | _ => { cmd := cmdStr, input := none }

/-- Models `asyncssh.SSHClientConnection.run`, per `run_cmd`'s docstring for the
`check` parameter: with `check` set, a non-zero exit status raises `ProcessError`
(carrying the exit status and stderr); otherwise the completed process is returned. -/
def sshRun (conn : Conn) (cmd : String) (input : Option String) (check : Bool) :
    Except ProcessError SSHCompletedProcess :=
  let p := conn cmd input
  if check = true ∧ p.returncode ≠ 0 then .error ⟨p.returncode, p.stderr⟩ else .ok p

/-- Function `run_cmd` (remote.py): builds the call (join, optional sudo wrap and stdin secret)
and awaits `conn.run(cmd, ..., check=check)`. The `asyncio.wait_for` deadline is part
of the I/O environment and not modelled; the claims checked here do not involve it. -/
def runCmd (conn : Conn) (cmd : PyCmd) (sudoArg : PySudo) (check : Bool) :
    Except ProcessError SSHCompletedProcess :=
  let c := runCmdCall cmd sudoArg
  sshRun conn c.cmd c.input check

/-- The structured log entry `run_cmd_logged` emits for a non-zero exit: the format
string interpolates the command, the return code and stderr. -/
structure LogEntry where
  cmd : PyCmd
  returncode : Int
  stderr : String
deriving DecidableEq, Repr

/-- Function `run_cmd_logged` (remote.py): calls `run_cmd` with `check=False`, then checks the
result's return code itself — a non-zero code is logged (command, return code, stderr)
and the completed process is returned either way, never raised on. -/
def runCmdLogged (conn : Conn) (cmd : PyCmd) (sudoArg : PySudo) :
    Except ProcessError (SSHCompletedProcess × Option LogEntry) :=
  (runCmd conn cmd sudoArg false).map fun r =>
    (r, if r.returncode ≠ 0 then some { cmd := cmd, returncode := r.returncode, stderr := r.stderr }
        else none)

/-- The positional parameters of `run_cmd` in order (`conn, cmd, sudo, check, timeout`);
remaining keyword arguments are collected by `**kwargs`. -/
def runCmdParams : List String := ["conn", "cmd", "sudo", "check", "timeout"]

/-- Models CPython's argument binding for a call to `run_cmd`: `npos` positional
arguments fill the parameters left to right; a keyword argument naming a parameter
already filled positionally raises
`TypeError: run_cmd() got multiple values for argument ...`. -/
def bindRunCmdCall (npos : Nat) (kwnames : List String) : Except PyErr Unit :=
  match kwnames.find? (fun k => (runCmdParams.take npos).contains k) with
  | some k => .error (.typeErr ("run_cmd() got multiple values for argument " ++ k))
  | Option.none => .ok ()

/-- Function `cat_file` (remote.py). The source line is
`r = await run_cmd(lgg, conn, cmd, sudo=sudo, encoding=None, timeout=timeout)`:
three positional arguments (`lgg`, `conn`, `cmd`) plus the keywords `sudo`,
`encoding`, `timeout`. Since `run_cmd` has no logger parameter, the positional
arguments shift by one (`lgg` lands in `conn`, `cmd` in `sudo`), so CPython's binding
step raises `TypeError` before the body of `run_cmd` runs; we model that binding step
explicitly. The intended continuation of the source (`return None` on non-zero exit,
else the stdout lines) is unreachable: the binding never succeeds. -/
def cat_file (_conn : Conn) (fn : String) (_sudoArg : PySudo) :
    Except PyErr (Option (List String)) :=
  let _cmd := ["cat", fn]
  match bindRunCmdCall 3 ["sudo", "encoding", "timeout"] with
  | .error e => .error e
  | .ok _ => .error (.typeErr "unreachable: the binding above never succeeds")

/-! ## Connection establisher (`connect`, remote.py) and task dispatcher (parallel.py) -/

/-- Observable connection-lifecycle events of one task: hop `i` of the chain was
opened, or `close()` was invoked on hop `i`. -/
inductive Ev where
  | opened (i : Nat)
  | closed (i : Nat)
deriving DecidableEq, Repr

/-- The classified per-target errors caught at the task boundary in
`run_task_on_remote` (parallel.py): `asyncio.TimeoutError`, `asyncssh.Error`,
`socket.error`, `ConnectionError`. -/
inductive ClassErr where
  | timeoutErr
  | sshErr (msg : String)
  | socketErr (msg : String)
  | connErr (msg : String)
deriving DecidableEq, Repr

deriving instance DecidableEq for Except

/-- The environment for one target's task: how many jump hosts its chain has (the end
host is always the last hop, so the chain has `jump_hops + 1` hops), at which hop index
`asyncssh.connect` raises — `none` when every hop opens — and what the caller-supplied
`task_func` does on an established connection (returns a value or raises a classified
error). -/
structure RemoteBehavior (R : Type) where
  jump_hops : Nat
  connectFailAt : Option Nat
  task : Except ClassErr R
deriving DecidableEq, Repr

/-- The hop loop of `connect` (remote.py): for each hop in order, `asyncssh.connect`
either opens it (appended to `cc`, `Ev.opened` recorded) or raises — and then the
already-collected `cc` of the local frame is discarded: the function returns the trace
of events so far and no connection list. No `close()` happens inside `connect`. -/
def connectGo (failAt : Option Nat) : List Nat → List Nat → List Ev →
    List Ev × Option (List Nat)
  | [], cc, tr => (tr, some cc)
  | i :: rest, cc, tr =>
      if failAt = some i then (tr, none)
      else connectGo failAt rest (cc ++ [i]) (tr ++ [Ev.opened i])

/-- Function `connect` (remote.py): `hops = [] + remote['jump_hosts'] + [remote['end_host']]`,
so a chain with `jump_hops` jump hosts has `jump_hops + 1` hops, opened left to right.
Returns the event trace and, on success, the ordered list of opened hop indices. -/
def mamaConnect (jump_hops : Nat) (failAt : Option Nat) : List Ev × Option (List Nat) :=
  connectGo failAt (List.range (jump_hops + 1)) [] []

/-- Function `run_task_on_remote` (parallel.py): `connections = []`; then in a `try`,
`connections = await mama_remote.connect(remote)`, `conn = connections[-1]`, and the
task value is returned. A classified error (from `connect` or from the task) is caught
and logged, and the function falls through — returning Python's implicit `None`. The
`finally` block closes `reversed(connections)`; when `connect` raised, `connections`
is still the empty list, so nothing is closed. Result: the returned value (`none`
models Python `None`) and the trace of connection events. -/
def run_task_on_remote {R : Type} (b : RemoteBehavior R) : Option R × List Ev :=
  match mamaConnect b.jump_hops b.connectFailAt with
  | (tr, Option.none) => (none, tr)
  | (tr, some cc) =>
      let closes := (cc.reverse).map Ev.closed
      match b.task with
      | .ok v => (some v, tr ++ closes)
      | .error _ => (none, tr ++ closes)

/-- The loop of `spawn_tasks` (parallel.py): pull one target from the queue, append
its task; once `len(tasks) >= max_tasks`, gather the batch into `results` and start a
new batch; gather the leftover batch after the queue is empty. `asyncio.gather`
returns the tasks' return values in order — including the `None` of tasks that hit a
classified error. -/
def spawnGo {R : Type} (max_tasks : Nat) : List (RemoteBehavior R) → List (Option R) →
    List (Option R) → List (Option R)
  | [], tasks, results => results ++ tasks
  | b :: q, tasks, results =>
      let tasks2 := tasks ++ [(run_task_on_remote b).1]
      if max_tasks ≤ tasks2.length then spawnGo max_tasks q [] (results ++ tasks2)
      else spawnGo max_tasks q tasks2 results

/-- Function `spawn_tasks` (parallel.py) for one worker process, applied to the sequence of
targets that worker pulls from the shared queue. -/
def spawn_tasks {R : Type} (queue : List (RemoteBehavior R)) (max_tasks : Nat) :
    List (Option R) :=
  spawnGo max_tasks queue [] []

/-- Function `spawn_processes` (parallel.py): fills the shared queue with `inputs`, caps the
worker count at the queue size (`if queue.qsize() < processes: processes = qsize`),
and creates `ProcessPoolExecutor(max_workers=processes)` — which raises
`ValueError('max_workers must be greater than 0')` when that count is 0 (CPython's
documented constructor check). Each worker runs `spawn_tasks` over the targets it
pulls; which worker pulls which target is scheduling-dependent, so the division of the
queue is passed in as `split` (one pull sequence per worker, in some completion
order); the result is the list of per-worker result lists (`[t.result() for t in
completed]`). -/
def spawn_processes {R : Type} (inputs : List (RemoteBehavior R)) (processes : Nat)
    (split : List (List (RemoteBehavior R))) (max_tasks : Nat) :
    Except PyErr (List (List (Option R))) :=
  let processes := if inputs.length < processes then inputs.length else processes
  if processes = 0 then .error (.value "max_workers must be greater than 0")
  else .ok (split.map fun seg => spawn_tasks seg max_tasks)

/-! ## Theorems -/

/-- C7 (code bug): `cat_file` never reaches the remote read. Its call
`run_cmd(lgg, conn, cmd, sudo=sudo, encoding=None, timeout=timeout)` passes the logger
positionally to a function whose first parameters are `conn, cmd, sudo, ...`, so the
list command lands in the `sudo` slot and the `sudo=` keyword then duplicates it:
CPython raises `TypeError: run_cmd() got multiple values for argument sudo` on every
call, instead of returning the file's lines on exit 0 and `None` on non-zero exit as
the claim (and the function's own docstring) state. -/
theorem cat_file_always_raises_type_error (conn : Conn) (fn : String) (sudoArg : PySudo) :
    cat_file conn fn sudoArg =
      .error (.typeErr "run_cmd() got multiple values for argument sudo") := rfl

/-- C8 (confirmed): `run_cmd` joins a list command with single spaces; when the `sudo`
argument is a secret string, the command line is prefixed with `sudo -S -p '' ` (the
privilege-escalation wrapper reading its credential from stdin with an empty prompt)
and the secret followed by a newline is supplied as the remote process's input. -/
theorem runCmd_builds_command_line (args : List String) (s : String) (b : Bool) :
    (runCmdCall (.list args) PySudo.none).cmd = String.intercalate " " args ∧
    (runCmdCall (.list args) (.bool b)).cmd = String.intercalate " " args ∧
    (runCmdCall (.list args) (.str s)).cmd = "sudo -S -p '' " ++ String.intercalate " " args ∧
    (runCmdCall (.list args) (.str s)).input = some (s ++ "\n") :=
  ⟨rfl, rfl, rfl, rfl⟩

/-- C9 (confirmed): in `run_cmd`/`run_cmd_logged`, elevation happens iff the `sudo`
argument is a string (`isinstance(sudo, str)`): the boolean `True` takes the `else`
branch, performing no wrapping and no secret write, so the command runs exactly as
with `sudo=None` (unelevated); a string secret wraps the command and writes the
secret. -/
theorem sudo_wrap_iff_secret_string (conn : Conn) (cmd : PyCmd) (check : Bool) (s : String) :
    runCmdCall cmd (.bool true) = runCmdCall cmd PySudo.none ∧
    (runCmdCall cmd (.bool true)).input = none ∧
    runCmd conn cmd (.bool true) check = runCmd conn cmd PySudo.none check ∧
    runCmdLogged conn cmd (.bool true) = runCmdLogged conn cmd PySudo.none ∧
    (runCmdCall cmd (.str s)).cmd = _wrap_sudo (runCmdCall cmd PySudo.none).cmd ∧
    (runCmdCall cmd (.str s)).input = some (s ++ "\n") :=
  ⟨rfl, rfl, rfl, rfl, rfl, rfl⟩

/-- C10 (confirmed): dispatching an empty target list never yields an empty result
list — the worker count is capped at the queue size, so zero targets gives
`ProcessPoolExecutor(max_workers=0)`, which raises
`ValueError('max_workers must be greater than 0')` instead of completing. -/
theorem dispatch_empty_targets_raises {R : Type} (processes max_tasks : Nat)
    (split : List (List (RemoteBehavior R))) :
    spawn_processes ([] : List (RemoteBehavior R)) processes split max_tasks =
      .error (.value "max_workers must be greater than 0") := by
  rcases processes with _ | p <;> simp [spawn_processes]

/-- C4 (confirmed): when the remote process exits non-zero, `run_cmd_logged` never
raises — it returns the completed process together with a log entry carrying the
command, the exit code and stderr — while `run_cmd` with default checking raises a
`ProcessError` carrying the same exit code and stderr. -/
theorem run_modes_on_nonzero_exit (conn : Conn) (cmd : PyCmd) (sudoArg : PySudo)
    (p : SSHCompletedProcess)
    (hp : conn (runCmdCall cmd sudoArg).cmd (runCmdCall cmd sudoArg).input = p)
    (hc : p.returncode ≠ 0) :
    runCmdLogged conn cmd sudoArg =
      .ok (p, some { cmd := cmd, returncode := p.returncode, stderr := p.stderr }) ∧
    runCmd conn cmd sudoArg true = .error { exit_status := p.returncode, stderr := p.stderr } := by
  unfold runCmdLogged runCmd sshRun
  simp [hp, hc, Except.map]

/-- The remote process of the C4 scenario: exit code 2, stderr `no such file`. -/
def connNoFile : Conn := fun _ _ => ⟨2, "", "no such file"⟩

/-- Witness for C4 at the spec's example: exit code 2 with stderr `no such file`. -/
theorem run_modes_on_nonzero_exit_witness :
    runCmdLogged connNoFile (.list ["cat", "x"]) PySudo.none =
      .ok (⟨2, "", "no such file"⟩, some ⟨.list ["cat", "x"], 2, "no such file"⟩) ∧
    runCmd connNoFile (.list ["cat", "x"]) PySudo.none true =
      .error ⟨2, "no such file"⟩ :=
  run_modes_on_nonzero_exit connNoFile (.list ["cat", "x"]) PySudo.none
    ⟨2, "", "no such file"⟩ rfl (by decide)

/-- Helper: when the failing hop is not among the hops still to open, the `connect`
loop opens every remaining hop in order and returns the full chain. -/
lemma connectGo_ok (failAt : Option Nat) (todo cc : List Nat) (tr : List Ev)
    (h : ∀ i ∈ todo, failAt ≠ some i) :
    connectGo failAt todo cc tr = (tr ++ todo.map Ev.opened, some (cc ++ todo)) := by
  induction todo generalizing cc tr with
  | nil => simp [connectGo]
  | cons i rest ih =>
      have hi : failAt ≠ some i := h i (by simp)
      rw [connectGo, if_neg hi, ih _ _ (fun j hj => h j (by simp [hj]))]
      simp

/-- Helper: when the failing hop is the first occurrence of `i` in the remaining hops,
the `connect` loop opens exactly the hops before it and returns no chain. -/
lemma connectGo_fail (i : Nat) (pre suf cc : List Nat) (tr : List Ev) (hpre : i ∉ pre) :
    connectGo (some i) (pre ++ i :: suf) cc tr = (tr ++ pre.map Ev.opened, none) := by
  induction pre generalizing cc tr with
  | nil => simp [connectGo]
  | cons j rest ih =>
      have hj : (some i : Option Nat) ≠ some j := by
        simp only [ne_eq, Option.some.injEq]
        exact fun h => hpre (h ▸ List.mem_cons_self j rest)
      rw [List.cons_append, connectGo, if_neg hj,
        ih _ _ (fun h => hpre (List.mem_cons_of_mem j h))]
      simp

/-- Evaluating `connect` on a chain of `jh + 1` hops that fails at hop `i`: hops `0..i-1` were
opened, no hop is closed, no chain is returned. -/
lemma mamaConnect_fail (jh i : Nat) (hi : i < jh + 1) :
    mamaConnect jh (some i) = ((List.range i).map Ev.opened, none) := by
  have hsplit : List.range (jh + 1) = List.range i ++ i :: List.range' (i + 1) (jh - i) := by
    rw [List.range_eq_range']
    rw [show jh + 1 = (jh + 1 - i) + i by omega]
    rw [← List.range'_append_1 0 i (jh + 1 - i)]
    rw [show jh + 1 - i = (jh - i) + 1 by omega, List.range'_succ, List.range_eq_range']
    simp
  rw [mamaConnect, hsplit, connectGo_fail i _ _ _ _ (by simp [List.mem_range])]
  simp

/-- Evaluating `connect` on a chain of `jh + 1` hops with no failing hop: all hops opened in
order, the full chain returned. -/
lemma mamaConnect_ok (jh : Nat) :
    mamaConnect jh none =
      ((List.range (jh + 1)).map Ev.opened, some (List.range (jh + 1))) := by
  rw [mamaConnect, connectGo_ok _ _ _ _ (by simp)]
  simp

/-- C2 (amended): when opening the chain fails at hop `i`, the already-opened hops
`0..i-1` are NOT closed — `connect` propagates the error without teardown and the
task's `finally` block sees the still-empty `connections` list, so the partial chain
leaks; only a fully opened chain is torn down at task end, and then `close()` runs in
exact reverse order of opening (last hop first), whether the task succeeded or
failed. -/
theorem hop_close_order {R S : Type} (b : RemoteBehavior R) (bf : RemoteBehavior S)
    (i : Nat) (hfail : b.connectFailAt = some i) (hlt : i < b.jump_hops + 1)
    (hok : bf.connectFailAt = none) :
    (run_task_on_remote b).2 = (List.range i).map Ev.opened ∧
    (run_task_on_remote bf).2 =
      (List.range (bf.jump_hops + 1)).map Ev.opened ++
        ((List.range (bf.jump_hops + 1)).reverse).map Ev.closed := by
  constructor
  · rw [run_task_on_remote, hfail, mamaConnect_fail _ _ hlt]
  · rw [run_task_on_remote, hok, mamaConnect_ok]
    cases bf.task <;> rfl

/-- Witness for C2 (amended): a 3-hop chain failing at hop index 1 opens only hop 0
and closes nothing; a fully opened 3-hop chain whose task fails still closes hops
2, 1, 0 in that order. -/
theorem hop_close_order_witness :
    (run_task_on_remote (⟨2, some 1, Except.ok 0⟩ : RemoteBehavior Nat)).2 =
      (List.range 1).map Ev.opened ∧
    (run_task_on_remote
        (⟨2, none, Except.error ClassErr.timeoutErr⟩ : RemoteBehavior Nat)).2 =
      (List.range 3).map Ev.opened ++ ((List.range 3).reverse).map Ev.closed :=
  hop_close_order _ _ 1 rfl (by decide) rfl

/-- A 3-hop chain (2 jump hosts) whose second hop fails to open. -/
def bPartialChain : RemoteBehavior Nat := ⟨2, some 1, .ok 0⟩

/-- C2 counterexample: with hop 1 of a 3-hop chain failing after hop 0 opened, the
claim demands that hop 0 be closed before the error surfaces; the task's full event
trace is `[opened 0]` — no close event at all. -/
theorem hop_leak_on_partial_failure :
    (run_task_on_remote bPartialChain).2 = [Ev.opened 0] ∧
    Ev.closed 0 ∉ (run_task_on_remote bPartialChain).2 := by decide

/-- Helper: the batching loop of `spawn_tasks` collects, in queue order, exactly one
entry per pulled target — the value `run_task_on_remote` returned for it — regardless
of the batch size. -/
lemma spawnGo_eq {R : Type} (mt : Nat) (q : List (RemoteBehavior R))
    (tasks results : List (Option R)) :
    spawnGo mt q tasks results =
      results ++ tasks ++ q.map (fun b => (run_task_on_remote b).1) := by
  induction q generalizing tasks results with
  | nil => simp [spawnGo]
  | cons b q ih =>
      rw [spawnGo]
      split
      · rw [ih]; simp
      · rw [ih]; simp

/-- Helper: `spawn_tasks` maps `run_task_on_remote` over the worker's pull sequence. -/
lemma spawn_tasks_eq_map {R : Type} (q : List (RemoteBehavior R)) (mt : Nat) :
    spawn_tasks q mt = q.map (fun b => (run_task_on_remote b).1) := by
  rw [spawn_tasks, spawnGo_eq]; simp

/-- C1 (amended): each dispatched target contributes exactly one entry to its worker's
result list — the task's return value when it completed, and Python's `None` when it
raised a classified error, because the task wrapper catches the error and falls
through, and `asyncio.gather` still collects that `None`. So for any division of the
queue among the workers in which each target is pulled exactly once, the concatenated
per-worker result lists are a permutation of `run_task_on_remote`'s per-target
outcomes: N entries for N targets, of which exactly the failed targets' entries are
`None` — dispatching 5 targets of which k fail yields 5 entries (k of them `None`),
not a list of length 5 − k. -/
theorem dispatch_one_entry_per_target {R : Type} (inputs : List (RemoteBehavior R))
    (processes max_tasks : Nat) (split : List (List (RemoteBehavior R)))
    (hne : inputs ≠ []) (hp : 0 < processes) (hsplit : split.flatten.Perm inputs) :
    spawn_processes inputs processes split max_tasks =
      .ok (split.map fun seg => spawn_tasks seg max_tasks) ∧
    ((split.map fun seg => spawn_tasks seg max_tasks).flatten).Perm
      (inputs.map fun b => (run_task_on_remote b).1) ∧
    ((split.map fun seg => spawn_tasks seg max_tasks).flatten).length = inputs.length ∧
    ((split.map fun seg => spawn_tasks seg max_tasks).flatten).countP (fun o => o.isNone) =
      inputs.countP (fun b => ((run_task_on_remote b).1).isNone) := by
  have hflat : (split.map fun seg => spawn_tasks seg max_tasks).flatten =
      split.flatten.map (fun b => (run_task_on_remote b).1) := by
    rw [List.map_flatten]
    simp only [spawn_tasks_eq_map]
  have hperm : ((split.map fun seg => spawn_tasks seg max_tasks).flatten).Perm
      (inputs.map fun b => (run_task_on_remote b).1) := by
    rw [hflat]; exact hsplit.map _
  refine ⟨?_, hperm, ?_, ?_⟩
  · have h0 : ¬ (if inputs.length < processes then inputs.length else processes) = 0 := by
      split
      · exact fun h => hne (List.length_eq_zero.mp h)
      · omega
    rw [spawn_processes, if_neg h0]
  · rw [hperm.length_eq, List.length_map]
  · rw [hperm.countP_eq, List.countP_map]; rfl

/-- A trivially succeeding single-target behavior used to witness the dispatch
theorem. -/
def okTarget : RemoteBehavior Nat := ⟨0, none, .ok 7⟩

/-- Witness for C1 (amended) at one target on one worker. -/
theorem dispatch_one_entry_per_target_witness :
    spawn_processes [okTarget] 1 [[okTarget]] 1 =
      .ok ([[okTarget]].map fun seg => spawn_tasks seg 1) ∧
    (([[okTarget]].map fun seg => spawn_tasks seg 1).flatten).Perm
      ([okTarget].map fun b => (run_task_on_remote b).1) ∧
    (([[okTarget]].map fun seg => spawn_tasks seg 1).flatten).length = [okTarget].length ∧
    (([[okTarget]].map fun seg => spawn_tasks seg 1).flatten).countP (fun o => o.isNone) =
      [okTarget].countP (fun b => ((run_task_on_remote b).1).isNone) :=
  dispatch_one_entry_per_target [okTarget] 1 1 [[okTarget]]
    (by decide) (by decide) (by simp)

/-- The C1 scenario: 5 single-hop targets, of which target 2 raises a classified task
error (timeout) and target 4 a classified connect error. -/
def fiveTargets : List (RemoteBehavior Nat) :=
  [⟨0, none, .ok 1⟩, ⟨0, none, .error .timeoutErr⟩, ⟨0, none, .ok 3⟩,
   ⟨0, some 0, .ok 4⟩, ⟨0, none, .ok 5⟩]

/-- A division of the 5-target queue between 2 workers. -/
def fiveSplit : List (List (RemoteBehavior Nat)) :=
  [[⟨0, none, .ok 1⟩, ⟨0, none, .error .timeoutErr⟩, ⟨0, none, .ok 3⟩],
   [⟨0, some 0, .ok 4⟩, ⟨0, none, .ok 5⟩]]

/-- C1 counterexample: dispatching 5 targets (worker count 2, `max_tasks = 1`) of
which 2 raise classified errors yields per-worker result lists with 5 entries in
total — the failed targets contribute `none` — and 5 ≠ 5 − 2: the result list does
not contain only the successful values. -/
theorem dispatch_five_targets_counterexample :
    spawn_processes fiveTargets 2 fiveSplit 1 =
      .ok [[some 1, none, some 3], [none, some 5]] ∧
    ¬ (([[some 1, none, some 3], [none, some 5]] : List (List (Option Nat))).flatten.length
        = 5 - 2) := by decide

/-- Method `delay()` never changes `self._max`. -/
lemma Delay.delay_max (d : Delay) : ((d.delay).2)._max = d._max := rfl

/-- Repeated `delay()` calls never change `self._max`. -/
lemma Delay.stateAfter_max (d : Delay) (n : Nat) : (d.stateAfter n)._max = d._max := by
  induction n generalizing d with
  | zero => rfl
  | succ n ih => rw [Delay.stateAfter, ih, Delay.delay_max]

/-- One `delay()` call from a state whose counter encodes `c` effective steps taken
(`_cnt = c - 1`, `c ≤ 12`): the incremented counter is clamped at the last index 11,
and the returned value is `min(DELAYS[min c 11], _max)`. -/
lemma Delay.delay_eq (d : Delay) (c : Nat) (hc : d._cnt = (c : Int) - 1)
    (hle : c ≤ 12) :
    d.delay = (min (Delay.DELAYS.getD (min c 11) 0) d._max,
               { d with _cnt := ((min c 11 : Nat) : Int) }) := by
  interval_cases c <;> simp [Delay.delay, hc, Delay.DELAYS]

/-- Characterization of the value of the `(k+1)`-st `delay()` call from a state whose
counter encodes `c` previous effective steps (`_cnt = c - 1`, `c ≤ 12`): the counter
is clamped at the last index 11, so the value is
`min(DELAYS[min (c + k) 11], _max)`. -/
lemma Delay.nth_char (d : Delay) (c k : Nat) (hc : d._cnt = (c : Int) - 1)
    (hle : c ≤ 12) :
    d.nth k = min (Delay.DELAYS.getD (min (c + k) 11) 0) d._max := by
  induction k generalizing d c with
  | zero =>
      rw [Delay.nth, Delay.delay_eq d c hc hle, Nat.add_zero]
  | succ k ih =>
      rw [Delay.nth, Delay.delay_eq d c hc hle]
      have hrec := ih { d with _cnt := ((min c 11 : Nat) : Int) } (min c 11 + 1)
        (by push_cast; omega) (by omega)
      rw [hrec]
      rw [show min (min c 11 + 1 + k) 11 = min (c + (k + 1)) 11 from by omega]

/-- C6 (amended): with no cap, the first six `delay()` calls return 0, 1, 2, 3, 5, 8;
from the 13th call on (index ≥ 12) every call returns 144, the internal counter being
clamped at the last index; `reset()` followed by `delay()` returns 0 again from any
reachable state; and with a NONZERO cap `m` set, every returned delay is the minimum
of the clamped sequence value and `m`. (A cap of 0 is falsy in the constructor and is
treated as no cap — see the counterexample.) -/
theorem delay_sequence_behaviour (n k j : Nat) (m : Int) (hn : 12 ≤ n) (hm : m ≠ 0) :
    (Delay.init none).run 6 = [0, 1, 2, 3, 5, 8] ∧
    (Delay.init none).nth n = 144 ∧
    (((Delay.init none).stateAfter j).reset).delay.1 = 0 ∧
    (Delay.init (some m)).nth k = min (Delay.DELAYS.getD (min k 11) 0) m := by
  refine ⟨by decide, ?_, ?_, ?_⟩
  · rw [Delay.nth_char (Delay.init none) 0 n rfl (by omega)]
    rw [show min (0 + n) 11 = 11 from by omega]
    decide
  · show (((Delay.init none).stateAfter j).reset).nth 0 = 0
    rw [Delay.nth_char _ 0 0 rfl (by omega)]
    have hmax : (((Delay.init none).stateAfter j).reset)._max = (Delay.init none)._max :=
      Delay.stateAfter_max (Delay.init none) j
    rw [hmax]
    decide
  · have hmax : (Delay.init (some m))._max = m := by
      rw [Delay.init]; simp [hm]
    rw [Delay.nth_char (Delay.init (some m)) 0 k rfl (by omega), hmax]
    rw [show min (0 + k) 11 = min k 11 from by omega]

/-- Witness for C6 (amended) at the 13th call and a capped helper. -/
theorem delay_sequence_behaviour_witness :
    (Delay.init none).run 6 = [0, 1, 2, 3, 5, 8] ∧
    (Delay.init none).nth 12 = 144 ∧
    (((Delay.init none).stateAfter 3).reset).delay.1 = 0 ∧
    (Delay.init (some 4)).nth 5 = min (Delay.DELAYS.getD (min 5 11) 0) 4 :=
  delay_sequence_behaviour 12 5 3 4 (by decide) (by decide)

/-- C6 counterexample: the claim says that with a cap set every returned delay is
`min(sequence value, cap)`; constructed with cap 0 (falsy in Python, hence treated as
no cap), the second call returns the raw sequence value 1, not `min 1 0 = 0`. -/
theorem delay_cap_zero_counterexample :
    (Delay.init (some 0)).nth 1 = 1 ∧
    ¬ ((Delay.init (some 0)).nth 1 = min 1 (0 : Int)) := by decide

/-- The C3 scenario: elevation requested while the end host URI `ssh://root@h1`
carries no password. -/
def sudoNoSecretArgs : CliArgs :=
  { remotes := ["ssh://root@h1"], jump_hosts := [], sudoFlag := true,
    cmd_timeout := 10, login_timeout := 120, strict_host_key_checking := false }

/-- C3 counterexample: resolving `elevate=true` with an end host lacking a secret does
NOT fail — `resolve_cli_arguments` has no such check; it succeeds and merely copies
the missing password (`None`) into `sudo_pwd`. -/
theorem resolve_sudo_without_secret_succeeds :
    resolve_cli_arguments sudoNoSecretArgs =
      .ok [{ end_host := { host := some "h1", port := 22, username := some "root",
                           password := none },
             jump_hosts := [], sudoFlag := true, cmd_timeout := 10, login_timeout := 120,
             known_hosts_none := true, sudo_pwd := some none }] := by
  rfl

/-- The resolver loop, on inputs whose complete URIs all parse and whose first entry
is complete (or a previous target exists): it succeeds, yields one target per input,
every target has the `finishTarget` shape, every complete-URI input at position `j`
yields at position `j` the target built from that URI's own parse, and every bare
input's target is built from the target just before it by substituting only the
host. -/
lemma resolveList_spec (ga : GeneralArgs) (prev : Option RemoteTarget) (ars : List String)
    (hp : ∀ a ∈ ars, pyStartswith a "ssh://" = true → (parse_ssh_url a).isOk = true)
    (hh : prev.isSome = true ∨ ∀ a, ars[0]? = some a → pyStartswith a "ssh://" = true) :
    ∃ rr, resolveList ga prev ars = .ok rr ∧
      rr.length = ars.length ∧
      (∀ r ∈ rr, ∃ eh, r = finishTarget ga eh) ∧
      (∀ (j : Nat) (a : String), ars[j]? = some a → pyStartswith a "ssh://" = true →
        ∃ eh, parse_ssh_url a = .ok eh ∧ rr[j]? = some (finishTarget ga eh)) ∧
      (∀ a, ars[0]? = some a → pyStartswith a "ssh://" = false →
        ∃ p, prev = some p ∧
          rr[0]? = some (finishTarget ga { p.end_host with host := some a })) ∧
      (∀ j a, ars[j + 1]? = some a → pyStartswith a "ssh://" = false →
        rr[j + 1]? = (rr[j]?).map
          (fun p => finishTarget ga { p.end_host with host := some a })) := by
  induction ars generalizing prev with
  | nil =>
      exact ⟨[], rfl, rfl, by simp, by simp, by simp, by simp⟩
  | cons a rest ih =>
      have hstep : ∃ r, resolveRemote ga prev a = .ok r ∧ (∃ eh, r = finishTarget ga eh) ∧
          (pyStartswith a "ssh://" = true →
            ∃ eh, parse_ssh_url a = .ok eh ∧ r = finishTarget ga eh) ∧
          (pyStartswith a "ssh://" = false →
            ∃ p, prev = some p ∧ r = finishTarget ga { p.end_host with host := some a }) := by
        cases hs : pyStartswith a "ssh://" with
        | false =>
            rcases hh with hprev | hfirst
            · rcases Option.isSome_iff_exists.mp hprev with ⟨p, hp'⟩
              refine ⟨finishTarget ga { p.end_host with host := some a }, ?_, ⟨_, rfl⟩,
                fun hc => Bool.noConfusion hc, fun _ => ⟨p, hp', rfl⟩⟩
              simp only [resolveRemote, hs, Bool.false_eq_true, if_false, hp']
            · have := hfirst a (by simp)
              rw [hs] at this
              exact Bool.noConfusion this
        | true =>
            have hok := hp a (by simp) hs
            rcases hpar : parse_ssh_url a with e | eh
            · rw [hpar] at hok
              simp [Except.isOk, Except.toBool] at hok
            · refine ⟨finishTarget ga eh, ?_, ⟨eh, rfl⟩, fun _ => ⟨eh, rfl, rfl⟩,
                fun hbare => ?_⟩
              · simp only [resolveRemote, hs, if_true, hpar]
                rfl
              · exact Bool.noConfusion hbare
      rcases hstep with ⟨r, hr, hshape, hcompcase, hbarecase⟩
      rcases ih (some r)
          (fun a' ha' hs' => hp a' (by simp [ha']) hs')
          (Or.inl rfl) with ⟨rr', hrest, hlen, hshapes, hcompl, hhead, hadj⟩
      refine ⟨r :: rr', ?_, by simpa using hlen, ?_, ?_, ?_, ?_⟩
      · simp only [resolveList, hr, hrest]
      · intro r' hmem
        rcases List.mem_cons.mp hmem with h | h
        · exact h ▸ hshape
        · exact hshapes r' h
      · intro j a1 hja hstart
        rcases j with _ | j'
        · have ha1 : a = a1 := by simpa using hja
          subst ha1
          rcases hcompcase hstart with ⟨eh, hpar, hreq⟩
          exact ⟨eh, hpar, by rw [List.getElem?_cons_zero, hreq]⟩
        · have hj' : rest[j']? = some a1 := by simpa using hja
          rcases hcompl j' a1 hj' hstart with ⟨eh, hpar, hreq⟩
          exact ⟨eh, hpar, by simpa using hreq⟩
      · intro a0 h0 hbare
        have ha0 : a = a0 := by simpa using h0
        subst ha0
        rcases hbarecase hbare with ⟨p, hp', hr'⟩
        exact ⟨p, hp', by rw [List.getElem?_cons_zero, hr']⟩
      · intro j a1 hj hbare
        rcases j with _ | j'
        · have hj' : rest[0]? = some a1 := by simpa using hj
          rcases hhead a1 hj' hbare with ⟨p, hp', hh'⟩
          have hpr : r = p := by injection hp'
          subst hpr
          simpa using hh'
        · have hj' : rest[j' + 1]? = some a1 := by simpa using hj
          simpa using hadj j' a1 hj' hbare

/-- Evaluating `resolve_cli_arguments` on a well-formed invocation (first remote complete, every
complete URI parseable, jump hosts parseable): it succeeds with one target per remote,
in input order (the target at position `j` of a complete-URI remote carries that very
remote's parsed end host), `sudo_pwd` present iff elevation was requested (mirroring
the end host's password), and each bare remote copying the preceding target with only
the host substituted. -/
lemma resolve_cli_arguments_spec (args : CliArgs) (a0 : String) (rest : List String)
    (h0 : args.remotes = a0 :: rest)
    (h1 : pyStartswith a0 "ssh://" = true)
    (hp : ∀ a ∈ args.remotes, pyStartswith a "ssh://" = true → (parse_ssh_url a).isOk = true)
    (hj : args.jump_hosts.isEmpty = false → (parse_ssh_urls args.jump_hosts).isOk = true) :
    ∃ rr, resolve_cli_arguments args = .ok rr ∧
      rr.length = args.remotes.length ∧
      (∀ (j : Nat) (a : String), args.remotes[j]? = some a → pyStartswith a "ssh://" = true →
        ∃ eh, parse_ssh_url a = .ok eh ∧ (rr[j]?).map RemoteTarget.end_host = some eh) ∧
      (∀ r ∈ rr, r.sudo_pwd = if args.sudoFlag then some r.end_host.password else none) ∧
      (∀ j a, args.remotes[j + 1]? = some a → pyStartswith a "ssh://" = false →
        rr[j + 1]? = (rr[j]?).map
          (fun p => { p with end_host := { p.end_host with host := some a } })) := by
  have hjh : ∃ jhs, (if args.jump_hosts.isEmpty then .ok [] else
      parse_ssh_urls args.jump_hosts : Except PyErr (List HostSpec)) = .ok jhs := by
    cases hje : args.jump_hosts.isEmpty
    · rcases hok : parse_ssh_urls args.jump_hosts with e | jhs
      · have := hj hje
        rw [hok] at this
        simp [Except.isOk, Except.toBool] at this
      · exact ⟨jhs, by simp [hje, hok]⟩
    · exact ⟨[], by simp [hje]⟩
  rcases hjh with ⟨jhs, hjhs⟩
  rcases resolveList_spec
      { jump_hosts := jhs, sudoFlag := args.sudoFlag, cmd_timeout := args.cmd_timeout,
        login_timeout := args.login_timeout,
        known_hosts_none := !args.strict_host_key_checking }
      none args.remotes hp
      (Or.inr (fun a ha => by
        rw [h0] at ha
        simp only [List.getElem?_cons_zero, Option.some.injEq] at ha
        exact ha ▸ h1))
      with ⟨rr, hok, hlen, hshape, hcompl, _, hadj⟩
  refine ⟨rr, ?_, hlen, ?_, ?_, ?_⟩
  · rw [resolve_cli_arguments, hjhs]
    exact hok
  · intro j a hja hstart
    rcases hcompl j a hja hstart with ⟨eh, hpar, hreq⟩
    exact ⟨eh, hpar, by rw [hreq]; rfl⟩
  · intro r hr
    rcases hshape r hr with ⟨eh, heq⟩
    subst heq
    rfl
  · intro j a hja hbare
    rw [hadj j a hja hbare]
    rcases hgetj : rr[j]? with _ | p
    · rfl
    · have hmem : p ∈ rr := List.getElem?_mem hgetj
      rcases hshape p hmem with ⟨eh, heq⟩
      subst heq
      simp [Option.map, finishTarget]

/-- C5 (confirmed): for a well-formed invocation whose first remote is a complete URI
(and whose URIs parse), the resolver yields exactly one target per input string, in
the same order as the inputs: the descriptor at position `j` of every complete-URI
input carries exactly that input's parsed end host, and every non-first bare remote
yields at its own position a deep copy of the immediately preceding resolved target
with only the end host's host field replaced by the bare string. -/
theorem resolver_one_target_per_input (args : CliArgs) (a0 : String) (rest : List String)
    (h0 : args.remotes = a0 :: rest)
    (h1 : pyStartswith a0 "ssh://" = true)
    (hp : ∀ a ∈ args.remotes, pyStartswith a "ssh://" = true → (parse_ssh_url a).isOk = true)
    (hj : args.jump_hosts.isEmpty = false → (parse_ssh_urls args.jump_hosts).isOk = true) :
    ∃ rr, resolve_cli_arguments args = .ok rr ∧
      rr.length = args.remotes.length ∧
      (∀ (j : Nat) (a : String), args.remotes[j]? = some a → pyStartswith a "ssh://" = true →
        ∃ eh, parse_ssh_url a = .ok eh ∧ (rr[j]?).map RemoteTarget.end_host = some eh) ∧
      (∀ j a, args.remotes[j + 1]? = some a → pyStartswith a "ssh://" = false →
        rr[j + 1]? = (rr[j]?).map
          (fun p => { p with end_host := { p.end_host with host := some a } })) := by
  rcases resolve_cli_arguments_spec args a0 rest h0 h1 hp hj with
    ⟨rr, hok, hlen, hcompl, _, hadj⟩
  exact ⟨rr, hok, hlen, hcompl, hadj⟩

/-- The C5 witness invocation: a complete first remote, a bare second remote, one
jump host. -/
def twoRemotesArgs : CliArgs :=
  { remotes := ["ssh://root:pw@h1:2222", "web2"], jump_hosts := ["ssh://j1"],
    sudoFlag := false, cmd_timeout := 10, login_timeout := 120,
    strict_host_key_checking := false }

/-- Witness for C5 at a concrete two-remote invocation. -/
theorem resolver_one_target_per_input_witness :
    ∃ rr, resolve_cli_arguments twoRemotesArgs = .ok rr ∧
      rr.length = twoRemotesArgs.remotes.length ∧
      (∀ (j : Nat) (a : String), twoRemotesArgs.remotes[j]? = some a →
          pyStartswith a "ssh://" = true →
        ∃ eh, parse_ssh_url a = .ok eh ∧ (rr[j]?).map RemoteTarget.end_host = some eh) ∧
      (∀ j a, twoRemotesArgs.remotes[j + 1]? = some a → pyStartswith a "ssh://" = false →
        rr[j + 1]? = (rr[j]?).map
          (fun p => { p with end_host := { p.end_host with host := some a } })) :=
  resolver_one_target_per_input twoRemotesArgs "ssh://root:pw@h1:2222" ["web2"]
    rfl (by decide) (by decide) (by decide)

/-- C3 (amended): requesting elevation with an end host whose URI carries no secret
does NOT fail with a configuration error — `resolve_cli_arguments` performs no such
check; resolution succeeds and each target's `sudo_pwd` key is set to its end host's
password field, which is `None` when the URI carries no secret. -/
theorem resolver_elevate_without_secret (args : CliArgs) (a0 : String) (rest : List String)
    (h0 : args.remotes = a0 :: rest)
    (h1 : pyStartswith a0 "ssh://" = true)
    (hp : ∀ a ∈ args.remotes, pyStartswith a "ssh://" = true → (parse_ssh_url a).isOk = true)
    (hj : args.jump_hosts.isEmpty = false → (parse_ssh_urls args.jump_hosts).isOk = true)
    (hs : args.sudoFlag = true) :
    ∃ rr, resolve_cli_arguments args = .ok rr ∧
      ∀ r ∈ rr, r.sudo_pwd = some r.end_host.password := by
  rcases resolve_cli_arguments_spec args a0 rest h0 h1 hp hj with ⟨rr, hok, _, _, hpwd, _⟩
  exact ⟨rr, hok, fun r hr => by simp [hpwd r hr, hs]⟩

/-- Witness for C3 (amended) at the password-less elevation scenario. -/
theorem resolver_elevate_without_secret_witness :
    ∃ rr, resolve_cli_arguments sudoNoSecretArgs = .ok rr ∧
      ∀ r ∈ rr, r.sudo_pwd = some r.end_host.password :=
  resolver_elevate_without_secret sudoNoSecretArgs "ssh://root@h1" []
    rfl (by decide) (by decide) (by decide) rfl
